import Mathlib

/-!
Verification of the image template-matching core of `@tego/botjs`
(`packages/botjs/src/image-match.ts`): the data model, the wrapper search
functions, the match-geometry utilities, and the polling primitives
`waitFor` / `waitForGone`.

The TypeScript wrapper delegates raw matching to a native engine
(`bot.findOnScreen`, `bot.findAllOnScreen`); that engine's pipeline
(config normalisation, scale-space generation, matcher threshold filter,
aggregation) is modelled here from the specification, with the
pixel-level similarity metric kept abstract as a `Scene` parameter.

Numbers: pixel coordinates and dimensions are integers (`Int`), scores
and scales are rationals (`ℚ`); JavaScript `Math.round` is `jsRound`.
-/

namespace ImageMatch

/-- JavaScript `Math.round`: round half toward positive infinity. -/
def jsRound (q : ℚ) : Int := ⌊q + 1 / 2⌋

/-- Structure `MatchResult` from `image-match.ts`: a matched region in absolute screen
coordinates with a confidence score and the scale at which it matched. -/
structure MatchResult where
  x : Int
  y : Int
  width : Int
  height : Int
  confidence : ℚ
  scale : ℚ
deriving DecidableEq, Repr

/-- Structure `bot.MatchResultJs`, the native engine's result record (same fields as the
wrapper's `MatchResult`). -/
structure MatchResultJs where
  x : Int
  y : Int
  width : Int
  height : Int
  confidence : ℚ
  scale : ℚ
deriving DecidableEq, Repr

/-- Function `fromMatchResultJs` from `image-match.ts`: field-by-field copy of a native
result into the wrapper's `MatchResult`. -/
def fromMatchResultJs (result : MatchResultJs) : MatchResult :=
  { x := result.x
    y := result.y
    width := result.width
    height := result.height
    confidence := result.confidence
    scale := result.scale }

/-- Structure `MatchConfig` from `image-match.ts`: a partially-specified matching
configuration (every field optional). -/
structure MatchConfig where
  searchMultipleScales : Option Bool := none
  useGrayscale : Option Bool := none
  scaleSteps : Option (List ℚ) := none
  confidence : Option ℚ := none
  limit : Option Int := none
deriving DecidableEq, Repr

/-- Structure `bot.MatchConfigJs`, the configuration record handed to the native
engine (same optional fields as `MatchConfig`). -/
structure MatchConfigJs where
  searchMultipleScales : Option Bool := none
  useGrayscale : Option Bool := none
  scaleSteps : Option (List ℚ) := none
  confidence : Option ℚ := none
  limit : Option Int := none
deriving DecidableEq, Repr

/-- Function `toMatchConfigJs` from `image-match.ts`: `undefined` passes through,
otherwise each field is copied. -/
def toMatchConfigJs : Option MatchConfig → Option MatchConfigJs
  | none => none
  | some config =>
    some { searchMultipleScales := config.searchMultipleScales
           useGrayscale := config.useGrayscale
           scaleSteps := config.scaleSteps
           confidence := config.confidence
           limit := config.limit }

/-- Structure `ImageResource` from `image-match.ts`: an encoded image byte buffer with
an optional origin path. -/
structure ImageResource where
  buffer : List Nat
  path : Option String := none
deriving DecidableEq, Repr

/-- Function `imageResourceFromBuffer` from `image-match.ts`: wrap a byte buffer,
recording no path. -/
def imageResourceFromBuffer (buffer : List Nat) : ImageResource :=
  { buffer := buffer }

/-- An `{x, y}` point, as returned by `getMatchCenter`. -/
structure Point where
  x : Int
  y : Int
deriving DecidableEq, Repr

/-- The `{left, top, right, bottom}` record returned by `getMatchBounds`. -/
structure BoundsRect where
  left : Int
  top : Int
  right : Int
  bottom : Int
deriving DecidableEq, Repr

/-- Function `getMatchCenter` from `image-match.ts`:
`{ x: Math.round(match.x + match.width / 2), y: Math.round(match.y + match.height / 2) }`. -/
def getMatchCenter (match' : MatchResult) : Point :=
  { x := jsRound ((match'.x : ℚ) + (match'.width : ℚ) / 2)
    y := jsRound ((match'.y : ℚ) + (match'.height : ℚ) / 2) }

/-- Function `getMatchBounds` from `image-match.ts`:
`{ left: match.x, top: match.y, right: match.x + match.width, bottom: match.y + match.height }`. -/
def getMatchBounds (match' : MatchResult) : BoundsRect :=
  { left := match'.x
    top := match'.y
    right := match'.x + match'.width
    bottom := match'.y + match'.height }

/-- The error taxonomy crossing the engine boundary (spec §6/§7). -/
inductive EngineError where
  | validationError
  | boundsError
  | ioError
  | decodeError
deriving DecidableEq, Repr

/-- A fully-defaulted, validated configuration (spec §4.2): what the native
engine's Config Normalizer produces. -/
structure NormConfig where
  searchMultipleScales : Bool
  useGrayscale : Bool
  scaleSteps : List ℚ
  confidence : ℚ
  limit : Nat
deriving DecidableEq, Repr

/-- The documented default scale steps `[1.0, 0.9, 0.8, 0.7, 0.6, 0.5]`. -/
def defaultScaleSteps : List ℚ := [1, 9 / 10, 8 / 10, 7 / 10, 6 / 10, 5 / 10]

/-- Modelled from the spec: the native engine's Config Normalizer (§4.2),
whose code is not in the surveyed sources. Defaults:
`searchMultipleScales = true`, `useGrayscale = false`,
`scaleSteps = [1.0, 0.9, 0.8, 0.7, 0.6, 0.5]`, `confidence = 0.8`,
`limit = 100`. Fails with `ValidationError` when `confidence` is outside
`[0,1]`, `limit ≤ 0`, or multi-scale search is requested with an empty or
non-positive scale-step list. -/
def normalizeConfig (cfg : Option MatchConfigJs) : Except EngineError NormConfig :=
  let sms := (cfg.bind MatchConfigJs.searchMultipleScales).getD true
  let gray := (cfg.bind MatchConfigJs.useGrayscale).getD false
  let steps := (cfg.bind MatchConfigJs.scaleSteps).getD defaultScaleSteps
  let conf := (cfg.bind MatchConfigJs.confidence).getD (8 / 10)
  let lim := (cfg.bind MatchConfigJs.limit).getD 100
  if conf < 0 ∨ 1 < conf then
    Except.error EngineError.validationError
  else if lim ≤ 0 then
    Except.error EngineError.validationError
  else if sms = true ∧ (steps = [] ∨ steps.any fun s => decide (s ≤ 0)) then
    Except.error EngineError.validationError
  else
    Except.ok
      { searchMultipleScales := sms
        useGrayscale := gray
        scaleSteps := steps
        confidence := conf
        limit := lim.toNat }

/-- Modelled from the spec: scaled template dimension (§4.3) — round the
product to the nearest integer, with minimum 1. -/
def scaledDim (d : Nat) (s : ℚ) : Nat :=
  max 1 (jsRound ((d : ℚ) * s)).toNat

/-- Modelled from the spec: the environment the native matcher runs in — the
captured screen, the template decoder, the sliding-window similarity scoring
(left abstract: spec §9 records the exact metric as an open question; the
`rawCandidates` field yields the surviving local maxima `(x, y, score)` for one
scale), and the aggregator's fixed overlap test (§4.5, threshold unspecified). -/
structure Scene where
  screenW : Nat
  screenH : Nat
  tmplW : List Nat → Nat
  tmplH : List Nat → Nat
  rawCandidates : List Nat → Bool → ℚ → List (Int × Int × ℚ)
  overlapsTooMuch : MatchResultJs → MatchResultJs → Bool

/-- Modelled from the spec: the Scale Space Generator (§4.3) — a single scale
`1.0` when multi-scale search is off, otherwise the configured steps with
those whose scaled template exceeds the haystack in either axis discarded. -/
def scaleSpace (sc : Scene) (tmpl : List Nat) (cfg : NormConfig) : List ℚ :=
  if cfg.searchMultipleScales then
    cfg.scaleSteps.filter fun s =>
      decide (scaledDim (sc.tmplW tmpl) s ≤ sc.screenW) &&
      decide (scaledDim (sc.tmplH tmpl) s ≤ sc.screenH)
  else
    [1]

/-- Modelled from the spec: the Matcher's emission step for one scale (§4.4)
— every surviving local maximum with `confidence ≥ config.confidence` becomes
a candidate whose width and height are the scaled template's dimensions. -/
def matcherEmit (sc : Scene) (cfg : NormConfig) (tmpl : List Nat) (s : ℚ) :
    List MatchResultJs :=
  ((sc.rawCandidates tmpl cfg.useGrayscale s).filter fun c =>
      decide (cfg.confidence ≤ c.2.2)).map fun c =>
    { x := c.1
      y := c.2.1
      width := (scaledDim (sc.tmplW tmpl) s : Int)
      height := (scaledDim (sc.tmplH tmpl) s : Int)
      confidence := c.2.2
      scale := s }

/-- Ranking order of the Result Aggregator (§4.5): confidence descending,
ties broken by preferring scale closer to `1.0`. -/
def rankLE (a b : MatchResultJs) : Bool :=
  decide (b.confidence < a.confidence) ||
  (decide (a.confidence = b.confidence) && decide (|a.scale - 1| ≤ |b.scale - 1|))

/-- Insertion step of the aggregator's sort. -/
def insertRank (a : MatchResultJs) : List MatchResultJs → List MatchResultJs
  | [] => [a]
  | b :: rest => if rankLE a b then a :: b :: rest else b :: insertRank a rest

/-- Insertion sort by `rankLE` (confidence descending). -/
def sortByRank : List MatchResultJs → List MatchResultJs
  | [] => []
  | a :: rest => insertRank a (sortByRank rest)

/-- Modelled from the spec: cross-scale non-maximum suppression (§4.5) over a
confidence-sorted candidate list — a candidate is dropped exactly when it
overlaps an already-kept (hence higher-ranked) candidate beyond the fixed
overlap test, so of two overlapping candidates only the higher-confidence one
is kept. `kept` accumulates survivors in reverse order. -/
def nmsKeep (overlaps : MatchResultJs → MatchResultJs → Bool)
    (kept : List MatchResultJs) : List MatchResultJs → List MatchResultJs
  | [] => kept.reverse
  | c :: rest =>
    if kept.any fun k => overlaps k c then
      nmsKeep overlaps kept rest
    else
      nmsKeep overlaps (c :: kept) rest

/-- Modelled from the spec: the native search pipeline behind
`bot.findAllOnScreen` (§4.3–§4.5) — normalize the config, generate the scale
space, run the matcher per scale, merge candidates, suppress cross-scale
overlaps, sort by rank, truncate to `limit`. -/
def botFindAllOnScreen (sc : Scene) (tmpl : List Nat) (cfg : Option MatchConfigJs) :
    Except EngineError (List MatchResultJs) := do
  let ncfg ← normalizeConfig cfg
  let cands := ((scaleSpace sc tmpl ncfg).map (matcherEmit sc ncfg tmpl)).flatten
  pure ((nmsKeep sc.overlapsTooMuch [] (sortByRank cands)).take ncfg.limit)

/-- Modelled from the spec: `bot.findOnScreen`, the single-best query — the
head of the same ranked pipeline output, or null if it is empty (§4.5). -/
def botFindOnScreen (sc : Scene) (tmpl : List Nat) (cfg : Option MatchConfigJs) :
    Except EngineError (Option MatchResultJs) :=
  (botFindAllOnScreen sc tmpl cfg).map List.head?

/-- Function `findAllOnScreen` from `image-match.ts`: call the native engine on the
template's buffer with the converted config and map `fromMatchResultJs` over
the results. -/
def findAllOnScreen (sc : Scene) (template : ImageResource)
    (config : Option MatchConfig) : Except EngineError (List MatchResult) :=
  (botFindAllOnScreen sc template.buffer (toMatchConfigJs config)).map
    (List.map fromMatchResultJs)

/-- Function `findOnScreen` from `image-match.ts`: call the native engine on the
template's buffer with the converted config; convert the result when present,
otherwise return null. -/
def findOnScreen (sc : Scene) (template : ImageResource)
    (config : Option MatchConfig) : Except EngineError (Option MatchResult) :=
  (botFindOnScreen sc template.buffer (toMatchConfigJs config)).map
    (Option.map fromMatchResultJs)

/-- One observable event of a `waitFor` / `waitForGone` run:
a `Date.now() - startTime < timeout` deadline check (recording the elapsed
milliseconds), a `findOnScreen` call (recording its attempt index and
outcome), or a `sleep(interval)` call. The error type `ε` is whatever the
underlying `findOnScreen` promise may reject with. -/
inductive WaitEvent (ε : Type) where
  | deadlineCheck (elapsed : Nat)
  | findCall (n : Nat) (result : Except ε (Option MatchResult))
  | sleepCall (ms : Int)

/-- Outcome of a poller run: a returned value, a propagated thrown error, or
fuel exhaustion (the run was cut off before the loop finished). -/
inductive WaitOutcome (α ε : Type) where
  | value (r : α)
  | thrown (e : ε)
  | fuelOut

/-- The durations of the `sleep` calls in an event trace, in order. -/
def sleepDurations {ε : Type} : List (WaitEvent ε) → List Int
  | [] => []
  | WaitEvent.sleepCall ms :: rest => ms :: sleepDurations rest
  | _ :: rest => sleepDurations rest

/-- The number of `findOnScreen` calls in an event trace. -/
def findCallCount {ε : Type} : List (WaitEvent ε) → Nat
  | [] => 0
  | WaitEvent.findCall _ _ :: rest => findCallCount rest + 1
  | _ :: rest => findCallCount rest

/-- The final event of a trace: the last thing the poller did before
returning. -/
def lastEvent {ε : Type} : List (WaitEvent ε) → Option (WaitEvent ε)
  | [] => none
  | [e] => some e
  | _ :: e :: rest => lastEvent (e :: rest)

/-- Function `waitFor` from `image-match.ts`, as a trace semantics of the loop

```
const startTime = Date.now();
while (Date.now() - startTime < timeout) \x7b
  const match = await findOnScreen(template, config);
  if (match) return match;
  await sleep(interval);
\x7d
return null;
```

`find k` is the outcome of the `k`-th `findOnScreen(template, config)` call
and `time k` the elapsed wall-clock milliseconds at the `k`-th deadline
check; `n` is the current attempt index and `fuel` a bound on the remaining
iterations, so any terminating run is reproduced with enough fuel. The
result is the ordered event trace paired with the outcome. -/
def waitForAux {ε : Type} (find : Nat → Except ε (Option MatchResult))
    (time : Nat → Nat) (timeout interval : Int) :
    Nat → Nat → List (WaitEvent ε) × WaitOutcome (Option MatchResult) ε
  | 0, _ => ([], WaitOutcome.fuelOut)
  | fuel + 1, n =>
    if (time n : Int) < timeout then
      match find n with
      | Except.error e =>
        ([WaitEvent.deadlineCheck (time n), WaitEvent.findCall n (Except.error e)],
         WaitOutcome.thrown e)
      | Except.ok (some m) =>
        ([WaitEvent.deadlineCheck (time n), WaitEvent.findCall n (Except.ok (some m))],
         WaitOutcome.value (some m))
      | Except.ok none =>
        (WaitEvent.deadlineCheck (time n) :: WaitEvent.findCall n (Except.ok none) ::
           WaitEvent.sleepCall interval ::
           (waitForAux find time timeout interval fuel (n + 1)).1,
         (waitForAux find time timeout interval fuel (n + 1)).2)
    else
      ([WaitEvent.deadlineCheck (time n)], WaitOutcome.value none)

/-- Function `waitFor` started at attempt 0 (the exported function). -/
def waitFor {ε : Type} (find : Nat → Except ε (Option MatchResult))
    (time : Nat → Nat) (timeout interval : Int) (fuel : Nat) :
    List (WaitEvent ε) × WaitOutcome (Option MatchResult) ε :=
  waitForAux find time timeout interval fuel 0

/-- Function `waitForGone` from `image-match.ts`, the symmetric loop: return `true`
the moment `findOnScreen` returns null, sleep and retry while a match is
still found, and return `false` once the deadline check fails. -/
def waitForGoneAux {ε : Type} (find : Nat → Except ε (Option MatchResult))
    (time : Nat → Nat) (timeout interval : Int) :
    Nat → Nat → List (WaitEvent ε) × WaitOutcome Bool ε
  | 0, _ => ([], WaitOutcome.fuelOut)
  | fuel + 1, n =>
    if (time n : Int) < timeout then
      match find n with
      | Except.error e =>
        ([WaitEvent.deadlineCheck (time n), WaitEvent.findCall n (Except.error e)],
         WaitOutcome.thrown e)
      | Except.ok none =>
        ([WaitEvent.deadlineCheck (time n), WaitEvent.findCall n (Except.ok none)],
         WaitOutcome.value true)
      | Except.ok (some m) =>
        (WaitEvent.deadlineCheck (time n) :: WaitEvent.findCall n (Except.ok (some m)) ::
           WaitEvent.sleepCall interval ::
           (waitForGoneAux find time timeout interval fuel (n + 1)).1,
         (waitForGoneAux find time timeout interval fuel (n + 1)).2)
    else
      ([WaitEvent.deadlineCheck (time n)], WaitOutcome.value false)

/-- Function `waitForGone` started at attempt 0 (the exported function). -/
def waitForGone {ε : Type} (find : Nat → Except ε (Option MatchResult))
    (time : Nat → Nat) (timeout interval : Int) (fuel : Nat) :
    List (WaitEvent ε) × WaitOutcome Bool ε :=
  waitForGoneAux find time timeout interval fuel 0

/-- A fixed sample match used in concrete scenarios. -/
def sampleMatch : MatchResult :=
  { x := 3, y := 4, width := 10, height := 20, confidence := 19 / 20, scale := 1 }

/-- A `findOnScreen` outcome oracle that never finds the template. -/
def neverFound : Nat → Except EngineError (Option MatchResult) :=
  fun _ => Except.ok none

/-- A `findOnScreen` outcome oracle that always finds `sampleMatch`. -/
def alwaysFound : Nat → Except EngineError (Option MatchResult) :=
  fun _ => Except.ok (some sampleMatch)

/-- An oracle whose second call (index 1) finds `sampleMatch`. -/
def foundAtOne : Nat → Except EngineError (Option MatchResult) :=
  fun k => if k = 1 then Except.ok (some sampleMatch) else Except.ok none

/-- An oracle whose second call (index 1) no longer finds the template. -/
def goneAtOne : Nat → Except EngineError (Option MatchResult) :=
  fun k => if k = 1 then Except.ok none else Except.ok (some sampleMatch)

/-- An oracle whose second call (index 1) throws, after a null result. -/
def failAtOne : Nat → Except EngineError (Option MatchResult) :=
  fun k => if k = 1 then Except.error EngineError.decodeError else Except.ok none

/-- An oracle whose second call (index 1) throws, after a found result. -/
def failAtOneStillThere : Nat → Except EngineError (Option MatchResult) :=
  fun k =>
    if k = 1 then Except.error EngineError.decodeError
    else Except.ok (some sampleMatch)

/-- A clock advancing 100 ms per poll iteration. -/
def clock100 : Nat → Nat := fun k => 100 * k

/-- A concrete scene: a 1920×1080 screen, a 10×20 template, one raw candidate
of score 0.95 at scale 1, and an overlap test that never fires. -/
def sampleScene : Scene :=
  { screenW := 1920
    screenH := 1080
    tmplW := fun _ => 10
    tmplH := fun _ => 20
    rawCandidates := fun _ _ s => if s = 1 then [(3, 4, 19 / 20)] else []
    overlapsTooMuch := fun _ _ => false }

/-- A concrete template resource. -/
def sampleTemplate : ImageResource := imageResourceFromBuffer [1, 2, 3]

/-- The native-side match `sampleScene` yields at scale 1. -/
def sampleMatchJs : MatchResultJs :=
  { x := 3, y := 4, width := 10, height := 20, confidence := 19 / 20, scale := 1 }

theorem mem_insertRank {x a : MatchResultJs} {l : List MatchResultJs} :
    x ∈ insertRank a l ↔ x = a ∨ x ∈ l := by
  induction l with
  | nil => simp [insertRank]
  | cons b rest ih =>
    simp only [insertRank]
    split
    · simp
    · simp only [List.mem_cons, ih]
      tauto

theorem mem_sortByRank {x : MatchResultJs} {l : List MatchResultJs} :
    x ∈ sortByRank l ↔ x ∈ l := by
  induction l with
  | nil => simp [sortByRank]
  | cons a rest ih => simp [sortByRank, mem_insertRank, ih]

theorem mem_nmsKeep (ov : MatchResultJs → MatchResultJs → Bool) :
    ∀ (l kept : List MatchResultJs) (x : MatchResultJs),
      x ∈ nmsKeep ov kept l → x ∈ kept ∨ x ∈ l := by
  intro l
  induction l with
  | nil =>
    intro kept x h
    simp only [nmsKeep, List.mem_reverse] at h
    exact Or.inl h
  | cons c rest ih =>
    intro kept x h
    simp only [nmsKeep] at h
    by_cases hc : (kept.any fun k => ov k c) = true
    · rw [if_pos hc] at h
      rcases ih kept x h with h1 | h2
      · exact Or.inl h1
      · exact Or.inr (List.mem_cons_of_mem _ h2)
    · rw [if_neg hc] at h
      rcases ih (c :: kept) x h with h1 | h2
      · rcases List.mem_cons.mp h1 with rfl | h1
        · exact Or.inr (List.mem_cons_self _ _)
        · exact Or.inl h1
      · exact Or.inr (List.mem_cons_of_mem _ h2)

theorem matcherEmit_confidence {sc : Scene} {cfg : NormConfig} {tmpl : List Nat}
    {s : ℚ} {m : MatchResultJs} (h : m ∈ matcherEmit sc cfg tmpl s) :
    cfg.confidence ≤ m.confidence := by
  simp only [matcherEmit, List.mem_map, List.mem_filter] at h
  obtain ⟨c, ⟨-, hc⟩, rfl⟩ := h
  exact of_decide_eq_true hc

theorem confidence_le_of_mem_botFindAll {sc : Scene} {tmpl : List Nat}
    {cfgJs : Option MatchConfigJs} {ncfg : NormConfig} {l : List MatchResultJs}
    {m : MatchResultJs} (hn : normalizeConfig cfgJs = Except.ok ncfg)
    (hall : botFindAllOnScreen sc tmpl cfgJs = Except.ok l) (hm : m ∈ l) :
    ncfg.confidence ≤ m.confidence := by
  unfold botFindAllOnScreen at hall
  rw [hn] at hall
  simp only [bind, Except.bind, Except.ok.injEq, pure, Except.pure] at hall
  subst hall
  have h1 : m ∈ nmsKeep sc.overlapsTooMuch []
      (sortByRank ((scaleSpace sc tmpl ncfg).map (matcherEmit sc ncfg tmpl)).flatten) :=
    List.take_subset _ _ hm
  rcases mem_nmsKeep _ _ _ _ h1 with h2 | h2
  · simp at h2
  · have h3 := mem_sortByRank.mp h2
    rcases List.mem_flatten.mp h3 with ⟨lst, hlst, hmem⟩
    rcases List.mem_map.mp hlst with ⟨s, -, rfl⟩
    exact matcherEmit_confidence hmem

theorem normalizeConfig_confidence (cfg : MatchConfig) (c : ℚ) (ncfg : NormConfig)
    (hc : cfg.confidence = some c)
    (h : normalizeConfig (toMatchConfigJs (some cfg)) = Except.ok ncfg) :
    ncfg.confidence = c := by
  unfold toMatchConfigJs normalizeConfig at h
  simp only [Option.bind, hc, Option.getD_some] at h
  split_ifs at h
  injection h with h2
  subst h2
  rfl

/-- C7: `imageResourceFromBuffer(b)` never fails — it is a total function —
and always returns an `ImageResource` whose buffer is exactly `b` and whose
path field is absent. -/
theorem imageResourceFromBuffer_total (b : List Nat) :
    (imageResourceFromBuffer b).buffer = b ∧ (imageResourceFromBuffer b).path = none := by
  constructor <;> rfl

/-- C9: `getMatchCenter(m)` returns exactly
`{ x: round(m.x + m.width / 2), y: round(m.y + m.height / 2) }` with
JavaScript rounding, and when `m.width` and `m.height` are even the center
is `(m.x + m.width / 2, m.y + m.height / 2)` exactly (integer halves). -/
theorem getMatchCenter_round (m : MatchResult) :
    getMatchCenter m =
      { x := jsRound ((m.x : ℚ) + (m.width : ℚ) / 2)
        y := jsRound ((m.y : ℚ) + (m.height : ℚ) / 2) } ∧
    (2 ∣ m.width → 2 ∣ m.height →
      getMatchCenter m = { x := m.x + m.width / 2, y := m.y + m.height / 2 }) := by
  refine ⟨rfl, fun hw hh => ?_⟩
  obtain ⟨w, hw⟩ := hw
  obtain ⟨h, hh⟩ := hh
  have key : ∀ a b : Int, jsRound ((a : ℚ) + ((2 * b : Int) : ℚ) / 2) = a + b := by
    intro a b
    have hcast : (a : ℚ) + ((2 * b : Int) : ℚ) / 2 = ((a + b : Int) : ℚ) + 1 / 2 - 1 / 2 := by
      push_cast
      ring
    unfold jsRound
    rw [hcast]
    have : ((a + b : Int) : ℚ) + 1 / 2 - 1 / 2 + 1 / 2 = ((a + b : Int) : ℚ) + 1 / 2 := by
      ring
    rw [this, Int.floor_int_add]
    norm_num
  have hx : jsRound ((m.x : ℚ) + (m.width : ℚ) / 2) = m.x + m.width / 2 := by
    rw [hw, key]
    omega
  have hy : jsRound ((m.y : ℚ) + (m.height : ℚ) / 2) = m.y + m.height / 2 := by
    rw [hh, key]
    omega
  simp only [getMatchCenter, Point.mk.injEq]
  exact ⟨hx, hy⟩

/-- C10: `getMatchBounds(m)` returns
`{ left: m.x, top: m.y, right: m.x + m.width, bottom: m.y + m.height }`, so
the bounds round-trip the match: `right - left = m.width`,
`bottom - top = m.height`, and `(left, top) = (m.x, m.y)`. -/
theorem getMatchBounds_roundtrip (m : MatchResult) :
    getMatchBounds m =
      { left := m.x, top := m.y, right := m.x + m.width, bottom := m.y + m.height } ∧
    (getMatchBounds m).right - (getMatchBounds m).left = m.width ∧
    (getMatchBounds m).bottom - (getMatchBounds m).top = m.height ∧
    (getMatchBounds m).left = m.x ∧ (getMatchBounds m).top = m.y := by
  refine ⟨rfl, ?_, ?_, rfl, rfl⟩ <;> simp [getMatchBounds]

/-- C3: for the same scene and config, `findOnScreen` equals the first
element of the list returned by `findAllOnScreen` (both propagating the same
error when the pipeline fails), and `findOnScreen` returns null exactly when
`findAllOnScreen` returns the empty list. -/
theorem findOnScreen_head_findAllOnScreen (sc : Scene) (t : ImageResource)
    (cfg : Option MatchConfig) :
    findOnScreen sc t cfg = Except.map List.head? (findAllOnScreen sc t cfg) ∧
    Except.map Option.isNone (findOnScreen sc t cfg) =
      Except.map List.isEmpty (findAllOnScreen sc t cfg) := by
  unfold findOnScreen findAllOnScreen botFindOnScreen
  cases hall : botFindAllOnScreen sc t.buffer (toMatchConfigJs cfg) with
  | error e => simp [Except.map]
  | ok l => cases l <;> simp [Except.map]

/-- C4: for every confidence threshold `c`, every `MatchResult` in the list
returned by `findAllOnScreen(template, {confidence: c})` has
`confidence ≥ c`, and the same invariant holds for a match returned by the
single-best search call `findOnScreen(template, {confidence: c})`. -/
theorem search_confidence_threshold (sc : Scene) (t : ImageResource)
    (cfg : MatchConfig) (c : ℚ) (hc : cfg.confidence = some c) :
    (∀ results m,
      findAllOnScreen sc t (some cfg) = Except.ok results →
      m ∈ results → c ≤ m.confidence) ∧
    (∀ m,
      findOnScreen sc t (some cfg) = Except.ok (some m) →
      c ≤ m.confidence) := by
  have main : ∀ (lj : List MatchResultJs) (mj : MatchResultJs),
      botFindAllOnScreen sc t.buffer (toMatchConfigJs (some cfg)) = Except.ok lj →
      mj ∈ lj → c ≤ mj.confidence := by
    intro lj mj hall hm
    cases hn : normalizeConfig (toMatchConfigJs (some cfg)) with
    | error e =>
      unfold botFindAllOnScreen at hall
      rw [hn] at hall
      simp [bind, Except.bind] at hall
    | ok ncfg =>
      have hle := confidence_le_of_mem_botFindAll hn hall hm
      rwa [normalizeConfig_confidence cfg c ncfg hc hn] at hle
  constructor
  · intro results m hall hm
    unfold findAllOnScreen at hall
    cases hba : botFindAllOnScreen sc t.buffer (toMatchConfigJs (some cfg)) with
    | error e =>
      rw [hba] at hall
      simp [Except.map] at hall
    | ok lj =>
      rw [hba] at hall
      simp only [Except.map, Except.ok.injEq] at hall
      subst hall
      obtain ⟨mj, hmj, rfl⟩ := List.mem_map.mp hm
      exact main lj mj hba hmj
  · intro m hone
    unfold findOnScreen botFindOnScreen at hone
    cases hba : botFindAllOnScreen sc t.buffer (toMatchConfigJs (some cfg)) with
    | error e =>
      rw [hba] at hone
      simp [Except.map] at hone
    | ok lj =>
      rw [hba] at hone
      simp only [Except.map, Except.ok.injEq] at hone
      obtain ⟨mj, hmjh, rfl⟩ := Option.map_eq_some'.mp hone
      exact main lj mj hba (List.mem_of_mem_head? hmjh)

theorem lastEvent_cons {ε : Type} (a : WaitEvent ε) {l : List (WaitEvent ε)}
    (h : l ≠ []) : lastEvent (a :: l) = lastEvent l := by
  cases l with
  | nil => exact absurd rfl h
  | cons b bs => rfl

theorem ne_nil_of_lastEvent {ε : Type} {l : List (WaitEvent ε)} {e : WaitEvent ε}
    (h : lastEvent l = some e) : l ≠ [] := by
  intro hemp
  rw [hemp] at h
  simp [lastEvent] at h

theorem waitForAux_timeout {ε : Type} (find : Nat → Except ε (Option MatchResult))
    (time : Nat → Nat) (timeout interval : Int) :
    ∀ (j fuel n : Nat), j < fuel →
      (∀ k, k < j → find (n + k) = Except.ok none) →
      (∀ k, k < j → (time (n + k) : Int) < timeout) →
      timeout ≤ (time (n + j) : Int) →
      (waitForAux find time timeout interval fuel n).2 = WaitOutcome.value none ∧
      lastEvent (waitForAux find time timeout interval fuel n).1 =
        some (WaitEvent.deadlineCheck (time (n + j))) ∧
      sleepDurations (waitForAux find time timeout interval fuel n).1 =
        List.replicate j interval ∧
      findCallCount (waitForAux find time timeout interval fuel n).1 = j := by
  intro j
  induction j with
  | zero =>
    intro fuel n hfuel hfind htime hj
    obtain ⟨f, rfl⟩ : ∃ f, fuel = f + 1 := ⟨fuel - 1, by omega⟩
    rw [Nat.add_zero] at hj
    have hcond : ¬ ((time n : Int) < timeout) := not_lt.mpr hj
    rw [waitForAux, if_neg hcond]
    exact ⟨rfl, rfl, rfl, rfl⟩
  | succ j ih =>
    intro fuel n hfuel hfind htime hj
    obtain ⟨f, rfl⟩ : ∃ f, fuel = f + 1 := ⟨fuel - 1, by omega⟩
    have hcond : (time n : Int) < timeout := by
      have := htime 0 (by omega)
      rwa [Nat.add_zero] at this
    have hfind0 : find n = Except.ok none := by
      have := hfind 0 (by omega)
      rwa [Nat.add_zero] at this
    have IH := ih f (n + 1) (by omega)
      (fun k hk => by
        have := hfind (k + 1) (by omega)
        rwa [show n + (k + 1) = n + 1 + k from by omega] at this)
      (fun k hk => by
        have := htime (k + 1) (by omega)
        rwa [show n + (k + 1) = n + 1 + k from by omega] at this)
      (by
        have := hj
        rwa [show n + (j + 1) = n + 1 + j from by omega] at this)
    obtain ⟨IH1, IH2, IH3, IH4⟩ := IH
    rw [waitForAux, if_pos hcond, hfind0]
    have hne : (waitForAux find time timeout interval f (n + 1)).1 ≠ [] :=
      ne_nil_of_lastEvent IH2
    refine ⟨IH1, ?_, ?_, ?_⟩
    · rw [lastEvent_cons _ (by simp), lastEvent_cons _ (by simp [hne]),
        lastEvent_cons _ hne, IH2, show n + 1 + j = n + (j + 1) from by omega]
    · simp only [sleepDurations, IH3, List.replicate_succ]
    · simp only [findCallCount, IH4]

theorem waitForAux_found {ε : Type} (find : Nat → Except ε (Option MatchResult))
    (time : Nat → Nat) (timeout interval : Int) :
    ∀ (j fuel n : Nat) (m : MatchResult), j < fuel →
      (∀ k, k < j → find (n + k) = Except.ok none) →
      (∀ k, k ≤ j → (time (n + k) : Int) < timeout) →
      find (n + j) = Except.ok (some m) →
      (waitForAux find time timeout interval fuel n).2 = WaitOutcome.value (some m) ∧
      lastEvent (waitForAux find time timeout interval fuel n).1 =
        some (WaitEvent.findCall (n + j) (Except.ok (some m))) ∧
      sleepDurations (waitForAux find time timeout interval fuel n).1 =
        List.replicate j interval ∧
      findCallCount (waitForAux find time timeout interval fuel n).1 = j + 1 := by
  intro j
  induction j with
  | zero =>
    intro fuel n m hfuel hfind htime hm
    obtain ⟨f, rfl⟩ : ∃ f, fuel = f + 1 := ⟨fuel - 1, by omega⟩
    have hcond : (time n : Int) < timeout := by
      have := htime 0 (by omega)
      rwa [Nat.add_zero] at this
    rw [Nat.add_zero] at hm
    rw [waitForAux, if_pos hcond, hm]
    exact ⟨rfl, rfl, rfl, rfl⟩
  | succ j ih =>
    intro fuel n m hfuel hfind htime hm
    obtain ⟨f, rfl⟩ : ∃ f, fuel = f + 1 := ⟨fuel - 1, by omega⟩
    have hcond : (time n : Int) < timeout := by
      have := htime 0 (by omega)
      rwa [Nat.add_zero] at this
    have hfind0 : find n = Except.ok none := by
      have := hfind 0 (by omega)
      rwa [Nat.add_zero] at this
    have IH := ih f (n + 1) m (by omega)
      (fun k hk => by
        have := hfind (k + 1) (by omega)
        rwa [show n + (k + 1) = n + 1 + k from by omega] at this)
      (fun k hk => by
        have := htime (k + 1) (by omega)
        rwa [show n + (k + 1) = n + 1 + k from by omega] at this)
      (by
        have := hm
        rwa [show n + (j + 1) = n + 1 + j from by omega] at this)
    obtain ⟨IH1, IH2, IH3, IH4⟩ := IH
    rw [waitForAux, if_pos hcond, hfind0]
    have hne : (waitForAux find time timeout interval f (n + 1)).1 ≠ [] :=
      ne_nil_of_lastEvent IH2
    refine ⟨IH1, ?_, ?_, ?_⟩
    · rw [lastEvent_cons _ (by simp), lastEvent_cons _ (by simp [hne]),
        lastEvent_cons _ hne, IH2, show n + 1 + j = n + (j + 1) from by omega]
    · simp only [sleepDurations, IH3, List.replicate_succ]
    · simp only [findCallCount, IH4]

theorem waitForAux_error {ε : Type} (find : Nat → Except ε (Option MatchResult))
    (time : Nat → Nat) (timeout interval : Int) :
    ∀ (j fuel n : Nat) (e : ε), j < fuel →
      (∀ k, k < j → find (n + k) = Except.ok none) →
      (∀ k, k ≤ j → (time (n + k) : Int) < timeout) →
      find (n + j) = Except.error e →
      (waitForAux find time timeout interval fuel n).2 = WaitOutcome.thrown e ∧
      lastEvent (waitForAux find time timeout interval fuel n).1 =
        some (WaitEvent.findCall (n + j) (Except.error e)) ∧
      findCallCount (waitForAux find time timeout interval fuel n).1 = j + 1 := by
  intro j
  induction j with
  | zero =>
    intro fuel n e hfuel hfind htime he
    obtain ⟨f, rfl⟩ : ∃ f, fuel = f + 1 := ⟨fuel - 1, by omega⟩
    have hcond : (time n : Int) < timeout := by
      have := htime 0 (by omega)
      rwa [Nat.add_zero] at this
    rw [Nat.add_zero] at he
    rw [waitForAux, if_pos hcond, he]
    exact ⟨rfl, rfl, rfl⟩
  | succ j ih =>
    intro fuel n e hfuel hfind htime he
    obtain ⟨f, rfl⟩ : ∃ f, fuel = f + 1 := ⟨fuel - 1, by omega⟩
    have hcond : (time n : Int) < timeout := by
      have := htime 0 (by omega)
      rwa [Nat.add_zero] at this
    have hfind0 : find n = Except.ok none := by
      have := hfind 0 (by omega)
      rwa [Nat.add_zero] at this
    have IH := ih f (n + 1) e (by omega)
      (fun k hk => by
        have := hfind (k + 1) (by omega)
        rwa [show n + (k + 1) = n + 1 + k from by omega] at this)
      (fun k hk => by
        have := htime (k + 1) (by omega)
        rwa [show n + (k + 1) = n + 1 + k from by omega] at this)
      (by
        have := he
        rwa [show n + (j + 1) = n + 1 + j from by omega] at this)
    obtain ⟨IH1, IH2, IH3⟩ := IH
    rw [waitForAux, if_pos hcond, hfind0]
    have hne : (waitForAux find time timeout interval f (n + 1)).1 ≠ [] :=
      ne_nil_of_lastEvent IH2
    refine ⟨IH1, ?_, ?_⟩
    · rw [lastEvent_cons _ (by simp), lastEvent_cons _ (by simp [hne]),
        lastEvent_cons _ hne, IH2, show n + 1 + j = n + (j + 1) from by omega]
    · simp only [findCallCount, IH3]

theorem waitForGoneAux_gone {ε : Type} (find : Nat → Except ε (Option MatchResult))
    (time : Nat → Nat) (timeout interval : Int) :
    ∀ (j fuel n : Nat) (ms : Nat → MatchResult), j < fuel →
      (∀ k, k < j → find (n + k) = Except.ok (some (ms k))) →
      (∀ k, k ≤ j → (time (n + k) : Int) < timeout) →
      find (n + j) = Except.ok none →
      (waitForGoneAux find time timeout interval fuel n).2 = WaitOutcome.value true ∧
      lastEvent (waitForGoneAux find time timeout interval fuel n).1 =
        some (WaitEvent.findCall (n + j) (Except.ok none)) ∧
      sleepDurations (waitForGoneAux find time timeout interval fuel n).1 =
        List.replicate j interval ∧
      findCallCount (waitForGoneAux find time timeout interval fuel n).1 = j + 1 := by
  intro j
  induction j with
  | zero =>
    intro fuel n ms hfuel hfind htime hgone
    obtain ⟨f, rfl⟩ : ∃ f, fuel = f + 1 := ⟨fuel - 1, by omega⟩
    have hcond : (time n : Int) < timeout := by
      have := htime 0 (by omega)
      rwa [Nat.add_zero] at this
    rw [Nat.add_zero] at hgone
    rw [waitForGoneAux, if_pos hcond, hgone]
    exact ⟨rfl, rfl, rfl, rfl⟩
  | succ j ih =>
    intro fuel n ms hfuel hfind htime hgone
    obtain ⟨f, rfl⟩ : ∃ f, fuel = f + 1 := ⟨fuel - 1, by omega⟩
    have hcond : (time n : Int) < timeout := by
      have := htime 0 (by omega)
      rwa [Nat.add_zero] at this
    have hfind0 : find n = Except.ok (some (ms 0)) := by
      have := hfind 0 (by omega)
      rwa [Nat.add_zero] at this
    have IH := ih f (n + 1) (fun k => ms (k + 1)) (by omega)
      (fun k hk => by
        have := hfind (k + 1) (by omega)
        rwa [show n + (k + 1) = n + 1 + k from by omega] at this)
      (fun k hk => by
        have := htime (k + 1) (by omega)
        rwa [show n + (k + 1) = n + 1 + k from by omega] at this)
      (by
        have := hgone
        rwa [show n + (j + 1) = n + 1 + j from by omega] at this)
    obtain ⟨IH1, IH2, IH3, IH4⟩ := IH
    rw [waitForGoneAux, if_pos hcond, hfind0]
    have hne : (waitForGoneAux find time timeout interval f (n + 1)).1 ≠ [] :=
      ne_nil_of_lastEvent IH2
    refine ⟨IH1, ?_, ?_, ?_⟩
    · rw [lastEvent_cons _ (by simp), lastEvent_cons _ (by simp [hne]),
        lastEvent_cons _ hne, IH2, show n + 1 + j = n + (j + 1) from by omega]
    · simp only [sleepDurations, IH3, List.replicate_succ]
    · simp only [findCallCount, IH4]

theorem waitForGoneAux_timeout {ε : Type} (find : Nat → Except ε (Option MatchResult))
    (time : Nat → Nat) (timeout interval : Int) :
    ∀ (j fuel n : Nat) (ms : Nat → MatchResult), j < fuel →
      (∀ k, k < j → find (n + k) = Except.ok (some (ms k))) →
      (∀ k, k < j → (time (n + k) : Int) < timeout) →
      timeout ≤ (time (n + j) : Int) →
      (waitForGoneAux find time timeout interval fuel n).2 = WaitOutcome.value false ∧
      lastEvent (waitForGoneAux find time timeout interval fuel n).1 =
        some (WaitEvent.deadlineCheck (time (n + j))) ∧
      sleepDurations (waitForGoneAux find time timeout interval fuel n).1 =
        List.replicate j interval ∧
      findCallCount (waitForGoneAux find time timeout interval fuel n).1 = j := by
  intro j
  induction j with
  | zero =>
    intro fuel n ms hfuel hfind htime hj
    obtain ⟨f, rfl⟩ : ∃ f, fuel = f + 1 := ⟨fuel - 1, by omega⟩
    rw [Nat.add_zero] at hj
    have hcond : ¬ ((time n : Int) < timeout) := not_lt.mpr hj
    rw [waitForGoneAux, if_neg hcond]
    exact ⟨rfl, rfl, rfl, rfl⟩
  | succ j ih =>
    intro fuel n ms hfuel hfind htime hj
    obtain ⟨f, rfl⟩ : ∃ f, fuel = f + 1 := ⟨fuel - 1, by omega⟩
    have hcond : (time n : Int) < timeout := by
      have := htime 0 (by omega)
      rwa [Nat.add_zero] at this
    have hfind0 : find n = Except.ok (some (ms 0)) := by
      have := hfind 0 (by omega)
      rwa [Nat.add_zero] at this
    have IH := ih f (n + 1) (fun k => ms (k + 1)) (by omega)
      (fun k hk => by
        have := hfind (k + 1) (by omega)
        rwa [show n + (k + 1) = n + 1 + k from by omega] at this)
      (fun k hk => by
        have := htime (k + 1) (by omega)
        rwa [show n + (k + 1) = n + 1 + k from by omega] at this)
      (by
        have := hj
        rwa [show n + (j + 1) = n + 1 + j from by omega] at this)
    obtain ⟨IH1, IH2, IH3, IH4⟩ := IH
    rw [waitForGoneAux, if_pos hcond, hfind0]
    have hne : (waitForGoneAux find time timeout interval f (n + 1)).1 ≠ [] :=
      ne_nil_of_lastEvent IH2
    refine ⟨IH1, ?_, ?_, ?_⟩
    · rw [lastEvent_cons _ (by simp), lastEvent_cons _ (by simp [hne]),
        lastEvent_cons _ hne, IH2, show n + 1 + j = n + (j + 1) from by omega]
    · simp only [sleepDurations, IH3, List.replicate_succ]
    · simp only [findCallCount, IH4]

theorem waitForGoneAux_error {ε : Type} (find : Nat → Except ε (Option MatchResult))
    (time : Nat → Nat) (timeout interval : Int) :
    ∀ (j fuel n : Nat) (ms : Nat → MatchResult) (e : ε), j < fuel →
      (∀ k, k < j → find (n + k) = Except.ok (some (ms k))) →
      (∀ k, k ≤ j → (time (n + k) : Int) < timeout) →
      find (n + j) = Except.error e →
      (waitForGoneAux find time timeout interval fuel n).2 = WaitOutcome.thrown e ∧
      lastEvent (waitForGoneAux find time timeout interval fuel n).1 =
        some (WaitEvent.findCall (n + j) (Except.error e)) ∧
      findCallCount (waitForGoneAux find time timeout interval fuel n).1 = j + 1 := by
  intro j
  induction j with
  | zero =>
    intro fuel n ms e hfuel hfind htime he
    obtain ⟨f, rfl⟩ : ∃ f, fuel = f + 1 := ⟨fuel - 1, by omega⟩
    have hcond : (time n : Int) < timeout := by
      have := htime 0 (by omega)
      rwa [Nat.add_zero] at this
    rw [Nat.add_zero] at he
    rw [waitForGoneAux, if_pos hcond, he]
    exact ⟨rfl, rfl, rfl⟩
  | succ j ih =>
    intro fuel n ms e hfuel hfind htime he
    obtain ⟨f, rfl⟩ : ∃ f, fuel = f + 1 := ⟨fuel - 1, by omega⟩
    have hcond : (time n : Int) < timeout := by
      have := htime 0 (by omega)
      rwa [Nat.add_zero] at this
    have hfind0 : find n = Except.ok (some (ms 0)) := by
      have := hfind 0 (by omega)
      rwa [Nat.add_zero] at this
    have IH := ih f (n + 1) (fun k => ms (k + 1)) e (by omega)
      (fun k hk => by
        have := hfind (k + 1) (by omega)
        rwa [show n + (k + 1) = n + 1 + k from by omega] at this)
      (fun k hk => by
        have := htime (k + 1) (by omega)
        rwa [show n + (k + 1) = n + 1 + k from by omega] at this)
      (by
        have := he
        rwa [show n + (j + 1) = n + 1 + j from by omega] at this)
    obtain ⟨IH1, IH2, IH3⟩ := IH
    rw [waitForGoneAux, if_pos hcond, hfind0]
    have hne : (waitForGoneAux find time timeout interval f (n + 1)).1 ≠ [] :=
      ne_nil_of_lastEvent IH2
    refine ⟨IH1, ?_, ?_⟩
    · rw [lastEvent_cons _ (by simp), lastEvent_cons _ (by simp [hne]),
        lastEvent_cons _ hne, IH2, show n + 1 + j = n + (j + 1) from by omega]
    · simp only [findCallCount, IH3]

/-- C1: when every underlying `findOnScreen` call returns null, `waitFor`
returns null, and it returns at a deadline check whose elapsed time is at
least `timeout`: the run's final event is the failed deadline check at the
first elapsed time `time j ≥ timeout`, every earlier check passed, and the
poller slept `interval` after each of its `j` failed attempts. -/
theorem waitFor_allNone_timeout {ε : Type}
    (find : Nat → Except ε (Option MatchResult)) (time : Nat → Nat)
    (timeout interval : Int) (j fuel : Nat)
    (hfind : ∀ k, find k = Except.ok none)
    (htime : ∀ k, k < j → (time k : Int) < timeout)
    (hj : timeout ≤ (time j : Int)) (hfuel : j < fuel) :
    (waitFor find time timeout interval fuel).2 = WaitOutcome.value none ∧
    lastEvent (waitFor find time timeout interval fuel).1 =
      some (WaitEvent.deadlineCheck (time j)) ∧
    timeout ≤ (time j : Int) ∧
    sleepDurations (waitFor find time timeout interval fuel).1 =
      List.replicate j interval ∧
    findCallCount (waitFor find time timeout interval fuel).1 = j := by
  have h := waitForAux_timeout find time timeout interval j fuel 0 hfuel
    (fun k _ => by simpa using hfind k)
    (fun k hk => by simpa using htime k hk)
    (by simpa using hj)
  exact ⟨h.1, by simpa using h.2.1, hj, h.2.2.1, h.2.2.2⟩

/-- C5: if the `j`-th `findOnScreen` call inside the `waitFor` loop returns a
match (all earlier calls having returned null within the deadline), `waitFor`
returns exactly that `MatchResult` immediately: the run's final event is that
successful call — no `sleep(interval)` follows it, the only sleeps being the
`j` after the failed attempts — and the returned value is the match
unchanged. -/
theorem waitFor_found_immediate {ε : Type}
    (find : Nat → Except ε (Option MatchResult)) (time : Nat → Nat)
    (timeout interval : Int) (j fuel : Nat) (m : MatchResult)
    (hfind : ∀ k, k < j → find k = Except.ok none)
    (htime : ∀ k, k ≤ j → (time k : Int) < timeout)
    (hm : find j = Except.ok (some m)) (hfuel : j < fuel) :
    (waitFor find time timeout interval fuel).2 = WaitOutcome.value (some m) ∧
    lastEvent (waitFor find time timeout interval fuel).1 =
      some (WaitEvent.findCall j (Except.ok (some m))) ∧
    sleepDurations (waitFor find time timeout interval fuel).1 =
      List.replicate j interval ∧
    findCallCount (waitFor find time timeout interval fuel).1 = j + 1 := by
  have h := waitForAux_found find time timeout interval j fuel 0 m hfuel
    (fun k hk => by simpa using hfind k hk)
    (fun k hk => by simpa using htime k hk)
    (by simpa using hm)
  exact ⟨h.1, by simpa using h.2.1, h.2.2.1, h.2.2.2⟩

/-- C2: `waitForGone` returns `true` as soon as some `findOnScreen` call
within the deadline returns null — the run's final event is that call, with
no additional sleep after it — and returns `false` when every `findOnScreen`
call made before the timeout elapses returns a match, returning only at a
deadline check whose elapsed time has reached `timeout`. -/
theorem waitForGone_behaviour {ε : Type}
    (find : Nat → Except ε (Option MatchResult)) (time : Nat → Nat)
    (timeout interval : Int) (fuel : Nat) :
    (∀ j, j < fuel →
      (∀ k, k < j → ∃ mk, find k = Except.ok (some mk)) →
      (∀ k, k ≤ j → (time k : Int) < timeout) →
      find j = Except.ok none →
      (waitForGone find time timeout interval fuel).2 = WaitOutcome.value true ∧
      lastEvent (waitForGone find time timeout interval fuel).1 =
        some (WaitEvent.findCall j (Except.ok none)) ∧
      sleepDurations (waitForGone find time timeout interval fuel).1 =
        List.replicate j interval) ∧
    (∀ j, j < fuel →
      (∀ k, k < j → ∃ mk, find k = Except.ok (some mk)) →
      (∀ k, k < j → (time k : Int) < timeout) →
      timeout ≤ (time j : Int) →
      (waitForGone find time timeout interval fuel).2 = WaitOutcome.value false ∧
      lastEvent (waitForGone find time timeout interval fuel).1 =
        some (WaitEvent.deadlineCheck (time j)) ∧
      timeout ≤ (time j : Int)) := by
  constructor
  · intro j hfuel hsome htime hgone
    choose ms hms using hsome
    have h := waitForGoneAux_gone find time timeout interval j fuel 0
      (fun k => if hk : k < j then ms k hk else ⟨0, 0, 0, 0, 0, 0⟩) hfuel
      (fun k hk => by simpa [hk] using hms k hk)
      (fun k hk => by simpa using htime k hk)
      (by simpa using hgone)
    exact ⟨h.1, by simpa using h.2.1, h.2.2.1⟩
  · intro j hfuel hsome htime hj
    choose ms hms using hsome
    have h := waitForGoneAux_timeout find time timeout interval j fuel 0
      (fun k => if hk : k < j then ms k hk else ⟨0, 0, 0, 0, 0, 0⟩) hfuel
      (fun k hk => by simpa [hk] using hms k hk)
      (fun k hk => by simpa using htime k hk)
      (by simpa using hj)
    exact ⟨h.1, by simpa using h.2.1, hj⟩

/-- C6: if a `findOnScreen` call inside `waitFor` or `waitForGone` throws, the
error propagates unmodified to the caller — the outcome is exactly that
thrown error — and the poller makes no further `findOnScreen` attempts: the
trace's final event is the throwing call and the total number of
`findOnScreen` calls is the `j` earlier attempts plus the throwing one. -/
theorem poller_error_propagation {ε : Type}
    (find : Nat → Except ε (Option MatchResult)) (time : Nat → Nat)
    (timeout interval : Int) (fuel : Nat) :
    (∀ j e, j < fuel →
      (∀ k, k < j → find k = Except.ok none) →
      (∀ k, k ≤ j → (time k : Int) < timeout) →
      find j = Except.error e →
      (waitFor find time timeout interval fuel).2 = WaitOutcome.thrown e ∧
      lastEvent (waitFor find time timeout interval fuel).1 =
        some (WaitEvent.findCall j (Except.error e)) ∧
      findCallCount (waitFor find time timeout interval fuel).1 = j + 1) ∧
    (∀ j e, j < fuel →
      (∀ k, k < j → ∃ mk, find k = Except.ok (some mk)) →
      (∀ k, k ≤ j → (time k : Int) < timeout) →
      find j = Except.error e →
      (waitForGone find time timeout interval fuel).2 = WaitOutcome.thrown e ∧
      lastEvent (waitForGone find time timeout interval fuel).1 =
        some (WaitEvent.findCall j (Except.error e)) ∧
      findCallCount (waitForGone find time timeout interval fuel).1 = j + 1) := by
  constructor
  · intro j e hfuel hfind htime he
    have h := waitForAux_error find time timeout interval j fuel 0 e hfuel
      (fun k hk => by simpa using hfind k hk)
      (fun k hk => by simpa using htime k hk)
      (by simpa using he)
    exact ⟨h.1, by simpa using h.2.1, h.2.2⟩
  · intro j e hfuel hsome htime he
    choose ms hms using hsome
    have h := waitForGoneAux_error find time timeout interval j fuel 0
      (fun k => if hk : k < j then ms k hk else ⟨0, 0, 0, 0, 0, 0⟩) e hfuel
      (fun k hk => by simpa [hk] using hms k hk)
      (fun k hk => by simpa using htime k hk)
      (by simpa using he)
    exact ⟨h.1, by simpa using h.2.1, h.2.2⟩

/-- C8: with `timeout ≤ 0` the deadline check fails before the first search
attempt, so `waitFor` returns null and `waitForGone` returns `false`, each
after a single deadline check: no `findOnScreen` call and no sleep occurs. -/
theorem poller_nonpositive_timeout {ε : Type}
    (find : Nat → Except ε (Option MatchResult)) (time : Nat → Nat)
    (timeout interval : Int) (fuel : Nat) (h : timeout ≤ 0) :
    waitFor find time timeout interval (fuel + 1) =
      ([WaitEvent.deadlineCheck (time 0)], WaitOutcome.value none) ∧
    findCallCount (waitFor find time timeout interval (fuel + 1)).1 = 0 ∧
    sleepDurations (waitFor find time timeout interval (fuel + 1)).1 = [] ∧
    waitForGone find time timeout interval (fuel + 1) =
      ([WaitEvent.deadlineCheck (time 0)], WaitOutcome.value false) ∧
    findCallCount (waitForGone find time timeout interval (fuel + 1)).1 = 0 ∧
    sleepDurations (waitForGone find time timeout interval (fuel + 1)).1 = [] := by
  have hcond : ¬ ((time 0 : Int) < timeout) :=
    not_lt.mpr (h.trans (Int.natCast_nonneg _))
  unfold waitFor waitForGone
  rw [waitForAux, waitForGoneAux, if_neg hcond, if_neg hcond]
  exact ⟨rfl, rfl, rfl, rfl, rfl, rfl⟩

/-- Witness for C4: a concrete scene where the search succeeds and the
returned match's confidence 0.95 meets the configured threshold 0.9. -/
theorem search_confidence_threshold_witness :
    findAllOnScreen sampleScene sampleTemplate
        (some { searchMultipleScales := some false, confidence := some (9 / 10) }) =
      Except.ok [fromMatchResultJs sampleMatchJs] ∧
    (9 / 10 : ℚ) ≤ (fromMatchResultJs sampleMatchJs).confidence := by
  have hall : findAllOnScreen sampleScene sampleTemplate
      (some { searchMultipleScales := some false, confidence := some (9 / 10) }) =
      Except.ok [fromMatchResultJs sampleMatchJs] := by
    norm_num [findAllOnScreen, botFindAllOnScreen, normalizeConfig, toMatchConfigJs,
      scaleSpace, scaledDim, jsRound, matcherEmit, sortByRank,
      insertRank, rankLE, nmsKeep, sampleScene, sampleTemplate, imageResourceFromBuffer,
      fromMatchResultJs, sampleMatchJs, bind, Except.bind, pure, Except.pure,
      List.filter_cons, decide_eq_true_eq, Except.map, List.take_of_length_le]
  exact ⟨hall,
    (search_confidence_threshold sampleScene sampleTemplate _ (9 / 10) rfl).1 _ _
      hall (List.mem_singleton_self _)⟩

/-- Witness for C1: with a never-matching oracle, a 100 ms-per-iteration
clock, timeout 200 and interval 50, `waitFor` returns null at the third
deadline check (elapsed 200 ≥ 200) after two failed attempts and two
sleeps. -/
theorem waitFor_allNone_timeout_witness :
    (waitFor neverFound clock100 200 50 3).2 = WaitOutcome.value none ∧
    lastEvent (waitFor neverFound clock100 200 50 3).1 =
      some (WaitEvent.deadlineCheck (clock100 2)) ∧
    (200 : Int) ≤ (clock100 2 : Int) ∧
    sleepDurations (waitFor neverFound clock100 200 50 3).1 = List.replicate 2 50 ∧
    findCallCount (waitFor neverFound clock100 200 50 3).1 = 2 :=
  waitFor_allNone_timeout neverFound clock100 200 50 2 3
    (fun _ => rfl)
    (fun k hk => by simp only [clock100]; omega)
    (by simp only [clock100]; omega)
    (by omega)

/-- Witness for C5: the second `findOnScreen` call finds the match and
`waitFor` returns it at once, the successful call being the final event. -/
theorem waitFor_found_immediate_witness :
    (waitFor foundAtOne clock100 200 50 2).2 = WaitOutcome.value (some sampleMatch) ∧
    lastEvent (waitFor foundAtOne clock100 200 50 2).1 =
      some (WaitEvent.findCall 1 (Except.ok (some sampleMatch))) ∧
    sleepDurations (waitFor foundAtOne clock100 200 50 2).1 = List.replicate 1 50 ∧
    findCallCount (waitFor foundAtOne clock100 200 50 2).1 = 1 + 1 :=
  waitFor_found_immediate foundAtOne clock100 200 50 1 2 sampleMatch
    (fun k hk => by
      have hk0 : k = 0 := by omega
      subst hk0
      rfl)
    (fun k hk => by simp only [clock100]; omega)
    rfl
    (by omega)

/-- Witness for C2: in one scenario the template disappears on the second
call and `waitForGone` returns `true` there; in another it never disappears
and `waitForGone` returns `false` at the deadline check with elapsed
200 ≥ 200. -/
theorem waitForGone_behaviour_witness :
    ((waitForGone goneAtOne clock100 200 50 2).2 = WaitOutcome.value true ∧
      lastEvent (waitForGone goneAtOne clock100 200 50 2).1 =
        some (WaitEvent.findCall 1 (Except.ok none)) ∧
      sleepDurations (waitForGone goneAtOne clock100 200 50 2).1 =
        List.replicate 1 50) ∧
    ((waitForGone alwaysFound clock100 200 50 3).2 = WaitOutcome.value false ∧
      lastEvent (waitForGone alwaysFound clock100 200 50 3).1 =
        some (WaitEvent.deadlineCheck (clock100 2)) ∧
      (200 : Int) ≤ (clock100 2 : Int)) :=
  ⟨(waitForGone_behaviour goneAtOne clock100 200 50 2).1 1 (by omega)
      (fun k hk => ⟨sampleMatch, by
        have hk0 : k = 0 := by omega
        subst hk0
        rfl⟩)
      (fun k hk => by simp only [clock100]; omega)
      rfl,
   (waitForGone_behaviour alwaysFound clock100 200 50 3).2 2 (by omega)
      (fun k hk => ⟨sampleMatch, rfl⟩)
      (fun k hk => by simp only [clock100]; omega)
      (by simp only [clock100]; omega)⟩

/-- Witness for C6: an oracle that throws `DecodeError` on its second call
makes both `waitFor` and `waitForGone` re-throw it, having made exactly two
`findOnScreen` calls. -/
theorem poller_error_propagation_witness :
    ((waitFor failAtOne clock100 200 50 2).2 =
        WaitOutcome.thrown EngineError.decodeError ∧
      lastEvent (waitFor failAtOne clock100 200 50 2).1 =
        some (WaitEvent.findCall 1 (Except.error EngineError.decodeError)) ∧
      findCallCount (waitFor failAtOne clock100 200 50 2).1 = 1 + 1) ∧
    ((waitForGone failAtOneStillThere clock100 200 50 2).2 =
        WaitOutcome.thrown EngineError.decodeError ∧
      lastEvent (waitForGone failAtOneStillThere clock100 200 50 2).1 =
        some (WaitEvent.findCall 1 (Except.error EngineError.decodeError)) ∧
      findCallCount (waitForGone failAtOneStillThere clock100 200 50 2).1 = 1 + 1) :=
  ⟨(poller_error_propagation failAtOne clock100 200 50 2).1 1
      EngineError.decodeError (by omega)
      (fun k hk => by
        have hk0 : k = 0 := by omega
        subst hk0
        rfl)
      (fun k hk => by simp only [clock100]; omega)
      rfl,
   (poller_error_propagation failAtOneStillThere clock100 200 50 2).2 1
      EngineError.decodeError (by omega)
      (fun k hk => ⟨sampleMatch, by
        have hk0 : k = 0 := by omega
        subst hk0
        rfl⟩)
      (fun k hk => by simp only [clock100]; omega)
      rfl⟩

/-- Witness for C8: with timeout 0, both pollers return at once after a
single deadline check — no `findOnScreen` call, no sleep. -/
theorem poller_nonpositive_timeout_witness :
    waitFor neverFound clock100 0 50 1 =
      ([WaitEvent.deadlineCheck (clock100 0)], WaitOutcome.value none) ∧
    findCallCount (waitFor neverFound clock100 0 50 1).1 = 0 ∧
    sleepDurations (waitFor neverFound clock100 0 50 1).1 = [] ∧
    waitForGone neverFound clock100 0 50 1 =
      ([WaitEvent.deadlineCheck (clock100 0)], WaitOutcome.value false) ∧
    findCallCount (waitForGone neverFound clock100 0 50 1).1 = 0 ∧
    sleepDurations (waitForGone neverFound clock100 0 50 1).1 = [] :=
  poller_nonpositive_timeout neverFound clock100 0 50 0 le_rfl

/-- Witness for C9: `sampleMatch` has even width 10 and height 20, so its
center is exactly `(3 + 5, 4 + 10) = (8, 14)`. -/
theorem getMatchCenter_round_witness :
    getMatchCenter sampleMatch = { x := 8, y := 14 } :=
  (getMatchCenter_round sampleMatch).2 ⟨5, rfl⟩ ⟨10, rfl⟩

end ImageMatch
